import Mathlib

/-!
A verification development for the query-execution core of a document search
engine: the transaction-scoped database cache (`search/new/db_cache.rs`), the
default search logger (`search/new/logger/mod.rs`), and the geo-sort ranking
rule (specified in the design documentation and exercised by
`search/new/tests/geo_sort.rs`).
-/

namespace MeiliSearch

/-- An association-list model of the `FxHashMap` used by the database cache:
entries are keyed by the interned form of the lookup key and hold the
`Option` outcome of a storage read (`none` means the key is absent from
storage). -/
abbrev Cache (κ ν : Type) : Type := List (κ × Option ν)

/-- Lookup in the cache map, mirroring `cache.entry(cache_key)`:
`some v` corresponds to `Entry::Occupied`, `none` to `Entry::Vacant`. -/
def lookupCache {κ ν : Type} [DecidableEq κ] : Cache κ ν → κ → Option (Option ν)
  | [], _ => none
  | (k, v) :: rest, k' => if k = k' then some v else lookupCache rest k'

/-- The outcome of one `DatabaseCache::get_value` call: the returned
`Result<Option<&[u8]>>`, the state of the cache map after the call, and the
number of storage-engine reads the call performed. -/
structure GetOutcome (κ ν ε : Type) where
  result : Except ε (Option ν)
  cache : Cache κ ν
  reads : Nat

/-- Embedding of `DatabaseCache::get_value` from `db_cache.rs` (lines 29-49):
if the cache entry for `cacheKey` is occupied, return the stored value
without touching storage; if it is vacant, perform one storage read
(`db.get(txn, db_key)?`), propagate its error if it fails (the `?` returns
before any insertion), and otherwise insert the outcome (present or absent)
into the cache and return it. `store` models the storage engine's read
operation `db.get(txn, ·)` over the read-only transaction. -/
def get_value {κ δ ν ε : Type} [DecidableEq κ] (store : δ → Except ε (Option ν))
    (cacheKey : κ) (dbKey : δ) (cache : Cache κ ν) : GetOutcome κ ν ε :=
  match lookupCache cache cacheKey with
  | some v => ⟨.ok v, cache, 0⟩
  | none =>
    match store dbKey with
    | .error e => ⟨.error e, cache, 1⟩
    | .ok v => ⟨.ok v, (cacheKey, v) :: cache, 1⟩

/-- Interned string handles (`Interned<String>`): small integer handles
produced by the dedup interner. -/
abbrev Interned : Type := Nat

/-- Embedding of the `DatabaseCache` struct (`db_cache.rs` lines 16-27): six
independently keyed maps, one per on-disk database. The three pair caches
are keyed by `(proximity, left handle, right handle)` triples, the three
single-word caches by one handle. -/
structure DatabaseCache (ν : Type) where
  word_pair_proximity_docids : Cache (Nat × Interned × Interned) ν
  word_prefix_pair_proximity_docids : Cache (Nat × Interned × Interned) ν
  prefix_word_pair_proximity_docids : Cache (Nat × Interned × Interned) ν
  word_docids : Cache Interned ν
  exact_word_docids : Cache Interned ν
  word_prefix_docids : Cache Interned ν

/-- The storage engine as seen by the database cache: one read-only lookup
function per on-disk database addressed by the cache's getters. -/
structure Index (ε ν : Type) where
  word_docids : String → Except ε (Option ν)
  word_prefix_docids : String → Except ε (Option ν)
  word_pair_proximity_docids : Nat × String × String → Except ε (Option ν)
  word_prefix_pair_proximity_docids : Nat × String × String → Except ε (Option ν)
  prefix_word_pair_proximity_docids : Nat × String × String → Except ε (Option ν)

namespace DatabaseCache

/-- Embedding of `DatabaseCache::get_word_docids`: `get_value` on the
`word_docids` map, cache-keyed by the interned word, db-keyed by the
interner's string for it. Returns the result, the updated `DatabaseCache`,
and the number of storage reads performed. -/
def get_word_docids {ε ν : Type} (index : Index ε ν) (word_interner : Interned → String)
    (word : Interned) (c : DatabaseCache ν) :
    Except ε (Option ν) × DatabaseCache ν × Nat :=
  let o := get_value index.word_docids word (word_interner word) c.word_docids
  (o.result, { c with word_docids := o.cache }, o.reads)

/-- Embedding of `DatabaseCache::get_word_prefix_docids`. -/
def get_word_prefix_docids {ε ν : Type} (index : Index ε ν) (word_interner : Interned → String)
    (p : Interned) (c : DatabaseCache ν) :
    Except ε (Option ν) × DatabaseCache ν × Nat :=
  let o := get_value index.word_prefix_docids p (word_interner p) c.word_prefix_docids
  (o.result, { c with word_prefix_docids := o.cache }, o.reads)

/-- Embedding of `DatabaseCache::get_word_pair_proximity_docids`: cache key
is the `(proximity, word1, word2)` handle triple, db key the corresponding
strings. -/
def get_word_pair_proximity_docids {ε ν : Type} (index : Index ε ν)
    (word_interner : Interned → String) (word1 word2 : Interned) (proximity : Nat)
    (c : DatabaseCache ν) : Except ε (Option ν) × DatabaseCache ν × Nat :=
  let o := get_value index.word_pair_proximity_docids (proximity, word1, word2)
    (proximity, word_interner word1, word_interner word2) c.word_pair_proximity_docids
  (o.result, { c with word_pair_proximity_docids := o.cache }, o.reads)

/-- Embedding of `DatabaseCache::get_word_prefix_pair_proximity_docids`. -/
def get_word_prefix_pair_proximity_docids {ε ν : Type} (index : Index ε ν)
    (word_interner : Interned → String) (word1 prefix2 : Interned) (proximity : Nat)
    (c : DatabaseCache ν) : Except ε (Option ν) × DatabaseCache ν × Nat :=
  let o := get_value index.word_prefix_pair_proximity_docids (proximity, word1, prefix2)
    (proximity, word_interner word1, word_interner prefix2) c.word_prefix_pair_proximity_docids
  (o.result, { c with word_prefix_pair_proximity_docids := o.cache }, o.reads)

/-- Embedding of `DatabaseCache::get_prefix_word_pair_proximity_docids`. -/
def get_prefix_word_pair_proximity_docids {ε ν : Type} (index : Index ε ν)
    (word_interner : Interned → String) ( left_prefix right : Interned) (proximity : Nat)
    (c : DatabaseCache ν) : Except ε (Option ν) × DatabaseCache ν × Nat :=
  let o := get_value index.prefix_word_pair_proximity_docids (proximity, left_prefix, right)
    (proximity, word_interner left_prefix, word_interner right) c.prefix_word_pair_proximity_docids
  (o.result, { c with prefix_word_pair_proximity_docids := o.cache }, o.reads)

end DatabaseCache

/-- A search logger, as in `logger/mod.rs`: a record of notification hooks,
each a transformer of the logger's own state `σ`. `Q` is the query type,
`B` the document-id bitmap type, `R` a ranking rule, `G` the internal state
bundle passed to the graph-state hooks. -/
structure SearchLogger (σ Q B R G : Type) where
  initial_query : σ → Q → σ
  query_for_universe : σ → Q → σ
  initial_universe : σ → B → σ
  ranking_rules : σ → List R → σ
  start_iteration_ranking_rule : σ → Nat → R → Q → B → σ
  next_bucket_ranking_rule : σ → Nat → R → B → B → σ
  skip_bucket_ranking_rule : σ → Nat → R → B → σ
  end_iteration_ranking_rule : σ → Nat → R → B → σ
  add_to_results : σ → List Nat → σ
  log_words_state : σ → Q → σ
  log_proximity_state : σ → G → σ
  log_typo_state : σ → G → σ

/-- Embedding of `DefaultSearchLogger` (`logger/mod.rs` lines 88-157): the
Rust struct has no fields, so its state type is `Unit`; every method body is
empty, so every hook returns the state unchanged. -/
def DefaultSearchLogger (Q B R G : Type) : SearchLogger Unit Q B R G where
  initial_query := fun s _ => s
  query_for_universe := fun s _ => s
  initial_universe := fun s _ => s
  ranking_rules := fun s _ => s
  start_iteration_ranking_rule := fun s _ _ _ _ => s
  next_bucket_ranking_rule := fun s _ _ _ _ => s
  skip_bucket_ranking_rule := fun s _ _ _ => s
  end_iteration_ranking_rule := fun s _ _ _ => s
  add_to_results := fun s _ => s
  log_words_state := fun s _ => s
  log_proximity_state := fun s _ => s
  log_typo_state := fun s _ => s

/-- Modelled from the spec: the geo-sort ranking rule's implementation is not
part of the excerpted sources (only its tests are), so the value of a
document's sort field is modelled from the spec's edge-case policy (§4.5): a
comparable geo point `(lat, lng)`, or one of the non-comparable shapes — a
null value, an object value, or an absent field. Coordinates are integers,
which covers every coordinate occurring in the tests. -/
inductive GeoValue where
  | point : Int → Int → GeoValue
  | null : GeoValue
  | obj : GeoValue
  | absent : GeoValue
deriving DecidableEq

/-- Modelled from the spec: a document as seen by the geo-sort rule — its
identifier and the value of its `_geo` sort field. -/
structure GeoDoc where
  docid : Nat
  geo : GeoValue
deriving DecidableEq

/-- Modelled from the spec: the comparable content of a sort-field value;
null, object and absent values have none. -/
def comparableGeo : GeoValue → Option (Int × Int)
  | .point lat lng => some (lat, lng)
  | _ => none

/-- Modelled from the spec: the geo-sort strategies of §4.5 —
`AlwaysIterative(chunk_size)`, `AlwaysRtree(min_size)` and
`Dynamic(threshold)`. -/
inductive GeoSortStrategy where
  | Dynamic : Nat → GeoSortStrategy
  | AlwaysIterative : Nat → GeoSortStrategy
  | AlwaysRtree : Nat → GeoSortStrategy

/-- Modelled from the spec: longitude distance wraps at the ±180°
antimeridian — the shorter way around the sphere between two longitudes. -/
def lngDist (a b : Int) : Nat :=
  min (a - b).natAbs (360 - (a - b).natAbs)

/-- Modelled from the spec: squared distance to the reference point;
latitude distance does not wrap, longitude distance does. Squared distance
induces the same ordering as distance, which is all the rule consumes. -/
def distSq (ref p : Int × Int) : Nat :=
  (ref.1 - p.1).natAbs * (ref.1 - p.1).natAbs + lngDist ref.2 p.2 * lngDist ref.2 p.2

/-- The total sort-key order used by every strategy: by first component
(signed distance), ties broken by document id, making the ordering
deterministic. -/
def lexLe (a b : Int × Nat) : Prop :=
  a.1 < b.1 ∨ (a.1 = b.1 ∧ a.2 ≤ b.2)

instance : DecidableRel lexLe := fun a b => by
  unfold lexLe
  infer_instance

instance : IsTotal (Int × Nat) lexLe := ⟨by
  rintro ⟨a1, a2⟩ ⟨b1, b2⟩
  unfold lexLe
  dsimp only
  omega⟩

instance : IsTrans (Int × Nat) lexLe := ⟨by
  rintro ⟨a1, a2⟩ ⟨b1, b2⟩ ⟨c1, c2⟩ hab hbc
  unfold lexLe at *
  dsimp only at *
  omega⟩

instance : IsAntisymm (Int × Nat) lexLe := ⟨by
  rintro ⟨a1, a2⟩ ⟨b1, b2⟩ hab hba
  unfold lexLe at *
  dsimp only at *
  have h1 : a1 = b1 := by omega
  have h2 : a2 = b2 := by omega
  rw [h1, h2]⟩

/-- Modelled from the spec: the sort key of a document with a comparable
value — ascending order sorts by distance, descending by negated distance;
non-comparable documents get no key. -/
def geoKey (asc : Bool) (ref : Int × Int) (d : GeoDoc) : Option (Int × Nat) :=
  match comparableGeo d.geo with
  | some p => some ((if asc then (distSq ref p : Int) else -(distSq ref p : Int)), d.docid)
  | none => none

/-- The keys of the comparable documents, in document order. -/
def geoKeys (asc : Bool) (ref : Int × Int) (docs : List GeoDoc) : List (Int × Nat) :=
  docs.filterMap (geoKey asc ref)

/-- The ids of the documents with no comparable value, in their original
relative order — these are placed at the end of the output. -/
def nonComparableIds (docs : List GeoDoc) : List Nat :=
  (docs.filter (fun d => (comparableGeo d.geo).isNone)).map GeoDoc.docid

/-- Modelled from the spec: the iterative strategy scans the keyed
documents in chunks of `csize` (at least one document per chunk), sorts
each chunk, and merges it with the result for the remaining documents. The
fuel argument is the length of the list, which strictly decreases at each
chunk. -/
def chunkLoop (csize : Nat) : Nat → List (Int × Nat) → List (Int × Nat)
  | _, [] => []
  | 0, _ :: _ => []
  | fuel + 1, x :: xs =>
    List.merge (List.insertionSort lexLe ((x :: xs).take (max 1 csize)))
      (chunkLoop csize fuel ((x :: xs).drop (max 1 csize)))
      (fun a b => decide (lexLe a b))

/-- Modelled from the spec: `AlwaysIterative(chunk_size)` — chunked scan of
the candidate keys. -/
def iterativeSort (csize : Nat) (keys : List (Int × Nat)) : List (Int × Nat) :=
  chunkLoop csize keys.length keys

/-- Modelled from the spec: extraction of the nearest remaining candidate,
as the ordered traversal of the spatial index would produce it: returns the
minimal key among the seed and the list, and the remaining keys in order. -/
def extractMin : (Int × Nat) → List (Int × Nat) → (Int × Nat) × List (Int × Nat)
  | x, [] => (x, [])
  | x, y :: ys =>
    if lexLe x y then
      ((extractMin x ys).1, y :: (extractMin x ys).2)
    else
      ((extractMin y ys).1, x :: (extractMin y ys).2)

/-- Modelled from the spec: repeated nearest-first extraction; fuel is the
length of the list. -/
def selectLoop : Nat → List (Int × Nat) → List (Int × Nat)
  | _, [] => []
  | 0, _ :: _ => []
  | fuel + 1, x :: xs =>
    (extractMin x xs).1 :: selectLoop fuel (extractMin x xs).2

/-- Modelled from the spec: `AlwaysRtree(min_size)` — build a spatial index
over the candidates and traverse it nearest-first (resp. farthest-first for
descending order, through the negated key). -/
def rtreeSort (keys : List (Int × Nat)) : List (Int × Nat) :=
  selectLoop keys.length keys

/-- Modelled from the spec: the geo-sort rule — order the comparable
documents by the strategy's algorithm over their sort keys, then place the
non-comparable documents at the end in their original relative order.
`Dynamic(threshold)` chooses the spatial index when the candidate set is
smaller than the threshold and the iterative scan otherwise. -/
def geoSort (strategy : GeoSortStrategy) (asc : Bool) (ref : Int × Int)
    (docs : List GeoDoc) : List Nat :=
  let keys := geoKeys asc ref docs
  let sorted := match strategy with
    | .AlwaysIterative c => iterativeSort c keys
    | .AlwaysRtree _ => rtreeSort keys
    | .Dynamic t => if keys.length < t then rtreeSort keys else iterativeSort t keys
  sorted.map Prod.snd ++ nonComparableIds docs

/-- The specification-side description of the geo-sort output: the
comparable documents sorted by their keys (one canonical sort), followed by
the non-comparable documents in original order. Every strategy is proved to
coincide with this. -/
def canonicalGeoSort (asc : Bool) (ref : Int × Int) (docs : List GeoDoc) : List Nat :=
  (List.insertionSort lexLe (geoKeys asc ref docs)).map Prod.snd ++ nonComparableIds docs

theorem chunkLoop_sorted (csize fuel : Nat) :
    ∀ l : List (Int × Nat), List.Sorted lexLe (chunkLoop csize fuel l) := by
  induction fuel with
  | zero =>
    intro l
    cases l with
    | nil => simp [chunkLoop]
    | cons x xs => simp [chunkLoop]
  | succ n ih =>
    intro l
    cases l with
    | nil => simp [chunkLoop]
    | cons x xs =>
      exact List.Sorted.merge (List.sorted_insertionSort lexLe _) (ih _)

theorem chunkLoop_perm (csize fuel : Nat) :
    ∀ l : List (Int × Nat), l.length ≤ fuel → (chunkLoop csize fuel l).Perm l := by
  induction fuel with
  | zero =>
    intro l h
    cases l with
    | nil => exact List.Perm.refl _
    | cons x xs => simp at h
  | succ n ih =>
    intro l h
    cases l with
    | nil => exact List.Perm.refl _
    | cons x xs =>
      have h1 : 1 ≤ max 1 csize := le_max_left 1 csize
      have hd : ((x :: xs).drop (max 1 csize)).length ≤ n := by
        rw [List.length_drop]
        simp only [List.length_cons] at h ⊢
        omega
      refine (List.perm_merge _ _ _).trans ?_
      refine (List.Perm.append (List.perm_insertionSort _ _) (ih _ hd)).trans ?_
      rw [List.take_append_drop]

theorem extractMin_length (x : Int × Nat) (l : List (Int × Nat)) :
    (extractMin x l).2.length = l.length := by
  induction l generalizing x with
  | nil => rfl
  | cons y ys ih =>
    simp only [extractMin]
    by_cases h : lexLe x y
    · simp [h, ih]
    · simp [h, ih]

theorem extractMin_perm (x : Int × Nat) (l : List (Int × Nat)) :
    ((extractMin x l).1 :: (extractMin x l).2).Perm (x :: l) := by
  induction l generalizing x with
  | nil => exact List.Perm.refl _
  | cons y ys ih =>
    simp only [extractMin]
    by_cases h : lexLe x y
    · rw [if_pos h]
      exact (List.Perm.swap y (extractMin x ys).1 (extractMin x ys).2).trans
        (((ih x).cons y).trans (List.Perm.swap x y ys))
    · rw [if_neg h]
      exact (List.Perm.swap x (extractMin y ys).1 (extractMin y ys).2).trans
        ((ih y).cons x)

theorem extractMin_le (x : Int × Nat) (l : List (Int × Nat)) :
    lexLe (extractMin x l).1 x ∧ ∀ z ∈ (extractMin x l).2, lexLe (extractMin x l).1 z := by
  induction l generalizing x with
  | nil =>
    refine ⟨(IsTotal.total (r := lexLe) x x).elim id id, ?_⟩
    intro z hz
    simp [extractMin] at hz
  | cons y ys ih =>
    simp only [extractMin]
    by_cases h : lexLe x y
    · rw [if_pos h]
      obtain ⟨h1, h2⟩ := ih x
      refine ⟨h1, ?_⟩
      intro z hz
      rcases List.mem_cons.mp hz with rfl | hz2
      · exact IsTrans.trans (r := lexLe) _ _ _ h1 h
      · exact h2 z hz2
    · rw [if_neg h]
      have hyx : lexLe y x := (IsTotal.total (r := lexLe) x y).resolve_left h
      obtain ⟨h1, h2⟩ := ih y
      refine ⟨IsTrans.trans (r := lexLe) _ _ _ h1 hyx, ?_⟩
      intro z hz
      rcases List.mem_cons.mp hz with rfl | hz2
      · exact IsTrans.trans (r := lexLe) _ _ _ h1 hyx
      · exact h2 z hz2

theorem selectLoop_perm (fuel : Nat) :
    ∀ l : List (Int × Nat), l.length ≤ fuel → (selectLoop fuel l).Perm l := by
  induction fuel with
  | zero =>
    intro l h
    cases l with
    | nil => exact List.Perm.refl _
    | cons x xs => simp at h
  | succ n ih =>
    intro l h
    cases l with
    | nil => exact List.Perm.refl _
    | cons x xs =>
      simp only [selectLoop]
      have hlen : (extractMin x xs).2.length ≤ n := by
        rw [extractMin_length]
        simp only [List.length_cons] at h
        omega
      exact ((ih _ hlen).cons _).trans (extractMin_perm x xs)

theorem selectLoop_sorted (fuel : Nat) :
    ∀ l : List (Int × Nat), l.length ≤ fuel → List.Sorted lexLe (selectLoop fuel l) := by
  induction fuel with
  | zero =>
    intro l h
    cases l with
    | nil => simp [selectLoop]
    | cons x xs => simp at h
  | succ n ih =>
    intro l h
    cases l with
    | nil => simp [selectLoop]
    | cons x xs =>
      simp only [selectLoop]
      rw [List.sorted_cons]
      have hlen : (extractMin x xs).2.length ≤ n := by
        rw [extractMin_length]
        simp only [List.length_cons] at h
        omega
      refine ⟨?_, ih _ hlen⟩
      intro b hb
      exact (extractMin_le x xs).2 b ((selectLoop_perm n _ hlen).subset hb)

theorem iterativeSort_eq (csize : Nat) (keys : List (Int × Nat)) :
    iterativeSort csize keys = List.insertionSort lexLe keys :=
  List.eq_of_perm_of_sorted
    ((chunkLoop_perm csize keys.length keys le_rfl).trans
      (List.perm_insertionSort lexLe keys).symm)
    (chunkLoop_sorted csize keys.length keys)
    (List.sorted_insertionSort lexLe keys)

theorem rtreeSort_eq (keys : List (Int × Nat)) :
    rtreeSort keys = List.insertionSort lexLe keys :=
  List.eq_of_perm_of_sorted
    ((selectLoop_perm keys.length keys le_rfl).trans
      (List.perm_insertionSort lexLe keys).symm)
    (selectLoop_sorted keys.length keys le_rfl)
    (List.sorted_insertionSort lexLe keys)

theorem geoSort_eq_canonical (strategy : GeoSortStrategy) (asc : Bool) (ref : Int × Int)
    (docs : List GeoDoc) : geoSort strategy asc ref docs = canonicalGeoSort asc ref docs := by
  cases strategy with
  | AlwaysIterative c =>
    simp only [geoSort, canonicalGeoSort, iterativeSort_eq]
  | AlwaysRtree m =>
    simp only [geoSort, canonicalGeoSort, rtreeSort_eq]
  | Dynamic t =>
    simp only [geoSort, canonicalGeoSort]
    split
    · rw [rtreeSort_eq]
    · rw [iterativeSort_eq]

theorem geoKeys_map_snd (asc : Bool) (ref : Int × Int) (docs : List GeoDoc) :
    (geoKeys asc ref docs).map Prod.snd
      = (docs.filter (fun d => (comparableGeo d.geo).isSome)).map GeoDoc.docid := by
  induction docs with
  | nil => rfl
  | cons d ds ih =>
    simp only [geoKeys, List.filterMap_cons, List.filter_cons] at *
    cases hg : comparableGeo d.geo with
    | some p => simp [geoKey, hg, ih]
    | none => simp [geoKey, hg, ih]

theorem geoKeys_of_absent (asc : Bool) (ref : Int × Int) (docs : List GeoDoc)
    (h : ∀ d ∈ docs, d.geo = GeoValue.absent) : geoKeys asc ref docs = [] := by
  induction docs with
  | nil => rfl
  | cons d ds ih =>
    have hd := h d (List.mem_cons_self d ds)
    simp only [geoKeys, List.filterMap_cons]
    rw [show geoKey asc ref d = none by simp [geoKey, hd, comparableGeo]]
    exact ih fun x hx => h x (List.mem_cons_of_mem d hx)

theorem nonComparableIds_of_absent (docs : List GeoDoc)
    (h : ∀ d ∈ docs, d.geo = GeoValue.absent) :
    nonComparableIds docs = docs.map GeoDoc.docid := by
  induction docs with
  | nil => rfl
  | cons d ds ih =>
    have hd := h d (List.mem_cons_self d ds)
    simp only [nonComparableIds, List.filter_cons, List.map_cons] at *
    rw [show ((comparableGeo d.geo).isNone = true) by simp [hd, comparableGeo]]
    simp only [if_pos trivial, List.map_cons]
    rw [ih fun x hx => h x (List.mem_cons_of_mem d hx)]

/-- The document set of the antimeridian test
(`test_geo_sort_around_the_edge_of_the_flat_earth`): documents at
`(0,0)`, `(88,0)`, `(-89,0)`, `(0,178)`, `(0,-179)`. -/
def geoDocsAntimeridian : List GeoDoc :=
  [⟨0, .point 0 0⟩, ⟨1, .point 88 0⟩, ⟨2, .point (-89) 0⟩,
   ⟨3, .point 0 178⟩, ⟨4, .point 0 (-179)⟩]

/-- The document set of the concrete scenario of `test_geo_sort`: six
geo-tagged documents and five documents without a geo field, in their
insertion order. -/
def geoDocsScenario : List GeoDoc :=
  [⟨2, .point 2 (-1)⟩, ⟨3, .point (-2) (-2)⟩, ⟨5, .point 6 (-5)⟩, ⟨4, .point 3 5⟩,
   ⟨0, .point 0 0⟩, ⟨1, .point 1 1⟩, ⟨6, .absent⟩, ⟨8, .absent⟩, ⟨7, .absent⟩,
   ⟨10, .absent⟩, ⟨9, .absent⟩]

/-- C1: within one transaction, the first `get_value` call for a key not yet
cached performs exactly one storage read and stores the outcome keyed by the
interned cache key; every later call with the same key performs no storage
read, leaves the cache unchanged (never overwriting or invalidating the
entry), and returns the identical `Option` outcome; and a call for a
different key never disturbs the stored entry. -/
theorem get_value_cache_idempotence {κ δ ν ε : Type} [DecidableEq κ]
    (store : δ → Except ε (Option ν)) (k : κ) (d : δ) (c : Cache κ ν) (v : Option ν)
    (hmiss : lookupCache c k = none) (hstore : store d = .ok v) :
    get_value store k d c = ⟨.ok v, (k, v) :: c, 1⟩ ∧
    (∀ (d2 : δ) (c2 : Cache κ ν), lookupCache c2 k = some v →
      get_value store k d2 c2 = ⟨.ok v, c2, 0⟩) ∧
    (∀ (k2 : κ) (d2 : δ), k2 ≠ k →
      lookupCache (get_value store k2 d2 ((k, v) :: c)).cache k = some v) := by
  have hk : lookupCache ((k, v) :: c) k = some v := by simp [lookupCache]
  refine ⟨?_, ?_, ?_⟩
  · simp [get_value, hmiss, hstore]
  · intro d2 c2 h2
    simp [get_value, h2]
  · intro k2 d2 hne
    cases hl : lookupCache ((k, v) :: c) k2 with
    | some w =>
      simp only [get_value, hl]
      exact hk
    | none =>
      cases hs : store d2 with
      | error e =>
        simp only [get_value, hl, hs]
        exact hk
      | ok w =>
        simp only [get_value, hl, hs]
        simp [lookupCache, hne, hk]

/-- Witness for C1: a concrete first call performs one read and inserts the
entry; a later call with the same key (even with a different storage key)
reads nothing, changes nothing and returns the same outcome. -/
theorem get_value_cache_idempotence_witness :
    get_value (fun _ : Nat => (Except.ok (some 7) : Except Unit (Option Nat))) 0 0 []
      = ⟨.ok (some 7), [(0, some 7)], 1⟩ ∧
    get_value (fun _ : Nat => (Except.ok (some 7) : Except Unit (Option Nat))) 0 1 [(0, some 7)]
      = ⟨.ok (some 7), [(0, some 7)], 0⟩ :=
  ⟨(get_value_cache_idempotence _ 0 0 [] (some 7) rfl rfl).1,
   (get_value_cache_idempotence (fun _ : Nat => (Except.ok (some 7) : Except Unit (Option Nat)))
      0 0 [] (some 7) rfl rfl).2.1 1 [(0, some 7)] rfl⟩

/-- C6: `get_value` returns an error exactly when it performs a storage read
and that read fails, and the error is the storage error unchanged; a key
that is absent from storage is not an error and yields `Ok(None)` (and is
cached as absent). -/
theorem get_value_error_propagation {κ δ ν ε : Type} [DecidableEq κ]
    (store : δ → Except ε (Option ν)) (k : κ) (d : δ) (c : Cache κ ν) :
    (∀ e : ε, (get_value store k d c).result = .error e ↔
      (lookupCache c k = none ∧ store d = .error e)) ∧
    (lookupCache c k = none → store d = .ok none →
      get_value store k d c = ⟨.ok none, (k, none) :: c, 1⟩) := by
  constructor
  · intro e
    constructor
    · intro h
      cases hl : lookupCache c k with
      | some w => simp [get_value, hl] at h
      | none =>
        cases hs : store d with
        | error e2 =>
          have he : e2 = e := by simpa [get_value, hl, hs] using h
          subst he
          exact ⟨rfl, rfl⟩
        | ok w => simp [get_value, hl, hs] at h
    · rintro ⟨hl, hs⟩
      simp [get_value, hl, hs]
  · intro hl hs
    simp [get_value, hl, hs]

/-- Witness for C6: a concrete miss on an absent key yields `Ok(None)` with
one read; a concrete failing storage read propagates the error unchanged. -/
theorem get_value_error_propagation_witness :
    get_value (fun _ : Nat => (Except.ok none : Except Nat (Option Nat))) 0 0 []
      = ⟨.ok none, [(0, none)], 1⟩ ∧
    (get_value (fun _ : Nat => (Except.error 5 : Except Nat (Option Nat))) 0 0 []).result
      = .error 5 :=
  ⟨(get_value_error_propagation (fun _ : Nat => (Except.ok none : Except Nat (Option Nat)))
      0 0 []).2 rfl rfl,
   ((get_value_error_propagation (fun _ : Nat => (Except.error 5 : Except Nat (Option Nat)))
      0 0 []).1 5).mpr ⟨rfl, rfl⟩⟩

/-- C9: if the storage read performed by `get_value` fails, the cache is left
exactly as it was — no entry is inserted for the requested key (which was
and remains uncached) — so a subsequent call with the same key performs the
storage read again. -/
theorem get_value_error_atomicity {κ δ ν ε : Type} [DecidableEq κ]
    (store : δ → Except ε (Option ν)) (k : κ) (d : δ) (c : Cache κ ν) (e : ε)
    (h : (get_value store k d c).result = .error e) :
    (get_value store k d c).cache = c ∧
    lookupCache c k = none ∧
    (get_value store k d c).reads = 1 ∧
    (get_value store k d (get_value store k d c).cache).reads = 1 := by
  cases hl : lookupCache c k with
  | some w => simp [get_value, hl] at h
  | none =>
    cases hs : store d with
    | error e2 => simp [get_value, hl, hs]
    | ok w => simp [get_value, hl, hs] at h

/-- Witness for C9: a concrete failing read leaves the empty cache empty,
and the retry performs the read again. -/
theorem get_value_error_atomicity_witness :
    (get_value (fun _ : Nat => (Except.error 9 : Except Nat (Option Nat))) 0 0 []).cache = [] ∧
    lookupCache ([] : Cache Nat Nat) 0 = none ∧
    (get_value (fun _ : Nat => (Except.error 9 : Except Nat (Option Nat))) 0 0 []).reads = 1 ∧
    (get_value (fun _ : Nat => (Except.error 9 : Except Nat (Option Nat))) 0 0
      (get_value (fun _ : Nat => (Except.error 9 : Except Nat (Option Nat))) 0 0 []).cache).reads
      = 1 :=
  get_value_error_atomicity _ 0 0 [] 9 rfl

/-- C7: the six sub-caches are independent — each getter writes only the one
map field for its database and leaves the other five unchanged; in
particular the same `(proximity, left, right)` triple addressed through the
word-pair, word-prefix-pair and prefix-word-pair getters lands in three
distinct maps, so the forward and reversed orientations never share a
cached outcome. -/
theorem database_cache_independence {ε ν : Type} (index : Index ε ν)
    (word_interner : Interned → String) (w w1 w2 : Interned) (p : Nat)
    (c : DatabaseCache ν) :
    ((DatabaseCache.get_word_docids index word_interner w c).2.1.word_prefix_docids
        = c.word_prefix_docids ∧
      (DatabaseCache.get_word_docids index word_interner w c).2.1.exact_word_docids
        = c.exact_word_docids ∧
      (DatabaseCache.get_word_docids index word_interner w c).2.1.word_pair_proximity_docids
        = c.word_pair_proximity_docids ∧
      (DatabaseCache.get_word_docids index word_interner w c).2.1.word_prefix_pair_proximity_docids
        = c.word_prefix_pair_proximity_docids ∧
      (DatabaseCache.get_word_docids index word_interner w c).2.1.prefix_word_pair_proximity_docids
        = c.prefix_word_pair_proximity_docids) ∧
    ((DatabaseCache.get_word_prefix_docids index word_interner w c).2.1.word_docids
        = c.word_docids ∧
      (DatabaseCache.get_word_prefix_docids index word_interner w c).2.1.exact_word_docids
        = c.exact_word_docids ∧
      (DatabaseCache.get_word_prefix_docids index word_interner w c).2.1.word_pair_proximity_docids
        = c.word_pair_proximity_docids ∧
      (DatabaseCache.get_word_prefix_docids index word_interner w
          c).2.1.word_prefix_pair_proximity_docids
        = c.word_prefix_pair_proximity_docids ∧
      (DatabaseCache.get_word_prefix_docids index word_interner w
          c).2.1.prefix_word_pair_proximity_docids
        = c.prefix_word_pair_proximity_docids) ∧
    ((DatabaseCache.get_word_pair_proximity_docids index word_interner w1 w2 p
          c).2.1.word_docids = c.word_docids ∧
      (DatabaseCache.get_word_pair_proximity_docids index word_interner w1 w2 p
          c).2.1.word_prefix_docids = c.word_prefix_docids ∧
      (DatabaseCache.get_word_pair_proximity_docids index word_interner w1 w2 p
          c).2.1.exact_word_docids = c.exact_word_docids ∧
      (DatabaseCache.get_word_pair_proximity_docids index word_interner w1 w2 p
          c).2.1.word_prefix_pair_proximity_docids = c.word_prefix_pair_proximity_docids ∧
      (DatabaseCache.get_word_pair_proximity_docids index word_interner w1 w2 p
          c).2.1.prefix_word_pair_proximity_docids = c.prefix_word_pair_proximity_docids) ∧
    ((DatabaseCache.get_word_prefix_pair_proximity_docids index word_interner w1 w2 p
          c).2.1.word_docids = c.word_docids ∧
      (DatabaseCache.get_word_prefix_pair_proximity_docids index word_interner w1 w2 p
          c).2.1.word_prefix_docids = c.word_prefix_docids ∧
      (DatabaseCache.get_word_prefix_pair_proximity_docids index word_interner w1 w2 p
          c).2.1.exact_word_docids = c.exact_word_docids ∧
      (DatabaseCache.get_word_prefix_pair_proximity_docids index word_interner w1 w2 p
          c).2.1.word_pair_proximity_docids = c.word_pair_proximity_docids ∧
      (DatabaseCache.get_word_prefix_pair_proximity_docids index word_interner w1 w2 p
          c).2.1.prefix_word_pair_proximity_docids = c.prefix_word_pair_proximity_docids) ∧
    ((DatabaseCache.get_prefix_word_pair_proximity_docids index word_interner w1 w2 p
          c).2.1.word_docids = c.word_docids ∧
      (DatabaseCache.get_prefix_word_pair_proximity_docids index word_interner w1 w2 p
          c).2.1.word_prefix_docids = c.word_prefix_docids ∧
      (DatabaseCache.get_prefix_word_pair_proximity_docids index word_interner w1 w2 p
          c).2.1.exact_word_docids = c.exact_word_docids ∧
      (DatabaseCache.get_prefix_word_pair_proximity_docids index word_interner w1 w2 p
          c).2.1.word_pair_proximity_docids = c.word_pair_proximity_docids ∧
      (DatabaseCache.get_prefix_word_pair_proximity_docids index word_interner w1 w2 p
          c).2.1.word_prefix_pair_proximity_docids = c.word_prefix_pair_proximity_docids) ∧
    (lookupCache ((DatabaseCache.get_word_pair_proximity_docids index word_interner w1 w2 p
          c).2.1.word_prefix_pair_proximity_docids) (p, w1, w2)
        = lookupCache c.word_prefix_pair_proximity_docids (p, w1, w2) ∧
      lookupCache ((DatabaseCache.get_word_pair_proximity_docids index word_interner w1 w2 p
          c).2.1.prefix_word_pair_proximity_docids) (p, w1, w2)
        = lookupCache c.prefix_word_pair_proximity_docids (p, w1, w2) ∧
      lookupCache ((DatabaseCache.get_word_prefix_pair_proximity_docids index word_interner w1 w2 p
          c).2.1.word_pair_proximity_docids) (p, w1, w2)
        = lookupCache c.word_pair_proximity_docids (p, w1, w2) ∧
      lookupCache ((DatabaseCache.get_word_prefix_pair_proximity_docids index word_interner w1 w2 p
          c).2.1.prefix_word_pair_proximity_docids) (p, w1, w2)
        = lookupCache c.prefix_word_pair_proximity_docids (p, w1, w2) ∧
      lookupCache ((DatabaseCache.get_prefix_word_pair_proximity_docids index word_interner w1 w2 p
          c).2.1.word_pair_proximity_docids) (p, w1, w2)
        = lookupCache c.word_pair_proximity_docids (p, w1, w2) ∧
      lookupCache ((DatabaseCache.get_prefix_word_pair_proximity_docids index word_interner w1 w2 p
          c).2.1.word_prefix_pair_proximity_docids) (p, w1, w2)
        = lookupCache c.word_prefix_pair_proximity_docids (p, w1, w2)) :=
  ⟨⟨rfl, rfl, rfl, rfl, rfl⟩, ⟨rfl, rfl, rfl, rfl, rfl⟩, ⟨rfl, rfl, rfl, rfl, rfl⟩,
   ⟨rfl, rfl, rfl, rfl, rfl⟩, ⟨rfl, rfl, rfl, rfl, rfl⟩, rfl, rfl, rfl, rfl, rfl, rfl⟩

/-- C8: every hook of the default search logger is a pure no-op — for every
input it leaves the logger state unchanged (and, being a pure function of
its arguments, cannot affect the pipeline's control flow or data). -/
theorem default_search_logger_noop (Q B R G : Type) (s : Unit) (q : Q) (u v : B) (r : R)
    (rs : List R) (g : G) (i : Nat) (ds : List Nat) :
    (DefaultSearchLogger Q B R G).initial_query s q = s ∧
    (DefaultSearchLogger Q B R G).query_for_universe s q = s ∧
    (DefaultSearchLogger Q B R G).initial_universe s u = s ∧
    (DefaultSearchLogger Q B R G).ranking_rules s rs = s ∧
    (DefaultSearchLogger Q B R G).start_iteration_ranking_rule s i r q u = s ∧
    (DefaultSearchLogger Q B R G).next_bucket_ranking_rule s i r u v = s ∧
    (DefaultSearchLogger Q B R G).skip_bucket_ranking_rule s i r u = s ∧
    (DefaultSearchLogger Q B R G).end_iteration_ranking_rule s i r u = s ∧
    (DefaultSearchLogger Q B R G).add_to_results s ds = s ∧
    (DefaultSearchLogger Q B R G).log_words_state s q = s ∧
    (DefaultSearchLogger Q B R G).log_proximity_state s g = s ∧
    (DefaultSearchLogger Q B R G).log_typo_state s g = s :=
  ⟨rfl, rfl, rfl, rfl, rfl, rfl, rfl, rfl, rfl, rfl, rfl, rfl⟩

/-- C2: for every document set, reference point and direction, the geo-sort
output is identical under `AlwaysIterative` and `AlwaysRtree`, and identical
across any `chunk_size` or `min_size` values. -/
theorem geo_sort_strategy_equivalence (c1 m1 c2 m2 : Nat) (asc : Bool) (ref : Int × Int)
    (docs : List GeoDoc) :
    geoSort (.AlwaysIterative c1) asc ref docs = geoSort (.AlwaysRtree m1) asc ref docs ∧
    geoSort (.AlwaysIterative c1) asc ref docs = geoSort (.AlwaysIterative c2) asc ref docs ∧
    geoSort (.AlwaysRtree m1) asc ref docs = geoSort (.AlwaysRtree m2) asc ref docs := by
  refine ⟨?_, ?_, ?_⟩ <;> rw [geoSort_eq_canonical, geoSort_eq_canonical]

/-- C3: with reference point `(0°, 175°)` and documents at `(0,0)`, `(88,0)`,
`(-89,0)`, `(0,178)`, `(0,-179)`, ascending geo-sort places the documents at
longitudes 178 and -179 (ids 3 and 4) before all three documents at
longitude 0 (ids 0, 1, 2), under every strategy: longitude wraps at the
antimeridian while latitude does not. -/
theorem geo_sort_antimeridian (strategy : GeoSortStrategy) :
    ((geoSort strategy true (0, 175) geoDocsAntimeridian).indexOf 3 <
      (geoSort strategy true (0, 175) geoDocsAntimeridian).indexOf 0) ∧
    ((geoSort strategy true (0, 175) geoDocsAntimeridian).indexOf 3 <
      (geoSort strategy true (0, 175) geoDocsAntimeridian).indexOf 1) ∧
    ((geoSort strategy true (0, 175) geoDocsAntimeridian).indexOf 3 <
      (geoSort strategy true (0, 175) geoDocsAntimeridian).indexOf 2) ∧
    ((geoSort strategy true (0, 175) geoDocsAntimeridian).indexOf 4 <
      (geoSort strategy true (0, 175) geoDocsAntimeridian).indexOf 0) ∧
    ((geoSort strategy true (0, 175) geoDocsAntimeridian).indexOf 4 <
      (geoSort strategy true (0, 175) geoDocsAntimeridian).indexOf 1) ∧
    ((geoSort strategy true (0, 175) geoDocsAntimeridian).indexOf 4 <
      (geoSort strategy true (0, 175) geoDocsAntimeridian).indexOf 2) := by
  simp only [geoSort_eq_canonical]
  decide

/-- C4: for every strategy, direction and document set, the documents whose
sort field is absent, null or an object come after every document with a
comparable value: the output is some ordering of the comparable documents'
ids followed by the non-comparable documents' ids in original order — a
tail that does not depend on the direction. -/
theorem geo_sort_noncomparable_placement (strategy : GeoSortStrategy) (asc : Bool)
    (ref : Int × Int) (docs : List GeoDoc) :
    ∃ front : List Nat,
      geoSort strategy asc ref docs = front ++ nonComparableIds docs ∧
      front.Perm ((docs.filter (fun d => (comparableGeo d.geo).isSome)).map GeoDoc.docid) := by
  refine ⟨(List.insertionSort lexLe (geoKeys asc ref docs)).map Prod.snd,
    geoSort_eq_canonical strategy asc ref docs, ?_⟩
  rw [← geoKeys_map_snd]
  exact (List.perm_insertionSort lexLe _).map Prod.snd

/-- C5: on the concrete document set of `test_geo_sort`, ascending geo-sort
toward `(0,0)` returns the geo-tagged ids in order `[0,1,2,3,4,5]` followed
by the five non-geo ids in their original relative order `[6,8,7,10,9]`,
for every strategy and parameter value the test exercises. -/
theorem geo_sort_concrete_scenario :
    geoSort (.Dynamic 100) true (0, 0) geoDocsScenario
      = [0, 1, 2, 3, 4, 5, 6, 8, 7, 10, 9] ∧
    geoSort (.Dynamic 3) true (0, 0) geoDocsScenario
      = [0, 1, 2, 3, 4, 5, 6, 8, 7, 10, 9] ∧
    geoSort (.AlwaysIterative 100) true (0, 0) geoDocsScenario
      = [0, 1, 2, 3, 4, 5, 6, 8, 7, 10, 9] ∧
    geoSort (.AlwaysIterative 3) true (0, 0) geoDocsScenario
      = [0, 1, 2, 3, 4, 5, 6, 8, 7, 10, 9] ∧
    geoSort (.AlwaysRtree 100) true (0, 0) geoDocsScenario
      = [0, 1, 2, 3, 4, 5, 6, 8, 7, 10, 9] ∧
    geoSort (.AlwaysRtree 3) true (0, 0) geoDocsScenario
      = [0, 1, 2, 3, 4, 5, 6, 8, 7, 10, 9] := by
  have h : canonicalGeoSort true (0, 0) geoDocsScenario
      = [0, 1, 2, 3, 4, 5, 6, 8, 7, 10, 9] := by decide
  refine ⟨?_, ?_, ?_, ?_, ?_, ?_⟩ <;> rw [geoSort_eq_canonical] <;> exact h

/-- C10: when no document has a geo field, ascending geo-sort succeeds (the
model is a total function) and returns exactly the input documents in their
original order, for every strategy and parameter value. -/
theorem geo_sort_no_geo_documents (strategy : GeoSortStrategy) (ref : Int × Int)
    (docs : List GeoDoc) (h : ∀ d ∈ docs, d.geo = GeoValue.absent) :
    geoSort strategy true ref docs = docs.map GeoDoc.docid := by
  rw [geoSort_eq_canonical]
  unfold canonicalGeoSort
  rw [geoKeys_of_absent true ref docs h, nonComparableIds_of_absent docs h]
  rfl

/-- Witness for C10: the universe of the test
`geo_sort_without_any_geo_faceted_documents` for the query "jean" — three
documents, none with a geo field — is returned unchanged. -/
theorem geo_sort_no_geo_documents_witness :
    geoSort (.AlwaysIterative 2) true (0, 0)
      [⟨0, .absent⟩, ⟨2, .absent⟩, ⟨3, .absent⟩] = [0, 2, 3] :=
  geo_sort_no_geo_documents (.AlwaysIterative 2) (0, 0)
    [⟨0, .absent⟩, ⟨2, .absent⟩, ⟨3, .absent⟩] (by decide)

end MeiliSearch
